import Mathlib

/-!
Verification development for the worktree-operator tools
(`plan_parser.py`, `git_ops.py`, `config.py`, `validation.py`).

Text is modelled as `List Char`; Python `int` return codes as `Int`.
The file-system boundary (reading `plan.md` / `workspace.json`) is modelled
by explicit input values (`ReadOutcome`, `ConfigFile`): the pure computation
on the file's contents is translated from the source.
-/

namespace WorktreeOperator

/-! ## Character / string utilities (Python `str` methods) -/

/-- Whitespace characters removed by Python `str.strip()`. -/
def isPySpace (c : Char) : Bool :=
  c = ' ' || c = '\t' || c = '\n' || c = '\r' || c = '\x0b' || c = '\x0c'

/-- The backquote character (stripped from dependency entries). -/
def backquote : Char := Char.ofNat 96

/-- Python `str.upper()` restricted to ASCII, applied characterwise. -/
def pyToUpper (c : Char) : Char :=
  if 'a' ≤ c && c ≤ 'z' then Char.ofNat (c.toNat - 32) else c

/-- Python `str.lower()` restricted to ASCII, applied characterwise. -/
def pyToLower (c : Char) : Char :=
  if 'A' ≤ c && c ≤ 'Z' then Char.ofNat (c.toNat + 32) else c

/-- Strip characters satisfying `p` from the left. -/
def lstripBy (p : Char → Bool) (l : List Char) : List Char := l.dropWhile p

/-- Strip characters satisfying `p` from the right. -/
def rstripBy (p : Char → Bool) (l : List Char) : List Char :=
  (l.reverse.dropWhile p).reverse

/-- Python `str.strip()` (no argument): strip whitespace from both ends. -/
def pyStrip (l : List Char) : List Char := rstripBy isPySpace (lstripBy isPySpace l)

/-- Python `str.strip('`')`: strip backquotes from both ends. -/
def stripBackquotes (l : List Char) : List Char :=
  rstripBy (fun c => c = backquote) (lstripBy (fun c => c = backquote) l)

/-- Python `str.lower()` on a whole string. -/
def lowerChars (l : List Char) : List Char := l.map pyToLower

/-- Python `str.upper()` on a whole string. -/
def upperChars (l : List Char) : List Char := l.map pyToUpper

/-- Python `str.upper()` on a Lean `String`. -/
def pyUpperS (s : String) : String := String.mk (upperChars s.toList)

/-- Python `str.strip()` on a Lean `String`. -/
def pyStripS (s : String) : String := String.mk (pyStrip s.toList)

/-- Python `str.split(',')`: always returns at least one (possibly empty) piece. -/
def splitComma : List Char → List (List Char)
  | [] => [[]]
  | c :: cs =>
    if c = ',' then [] :: splitComma cs
    else
      match splitComma cs with
      | [] => [[c]]
      | g :: gs => (c :: g) :: gs

/-! ## `plan_parser.py` — data model -/

/-- Status values that are considered complete for dependency checking
(`COMPLETED_STATUSES` in `plan_parser.py`). -/
def COMPLETED_STATUSES : List String := ["COMPLETED", "DONE", "MERGED"]

/-- Status values that are considered valid (`VALID_STATUSES`). -/
def VALID_STATUSES : List String :=
  ["PENDING", "IN_PROGRESS", "IN_REVIEW", "ITERATING",
   "COMPLETED", "DONE", "MERGED", "BLOCKED", "ABANDONED"]

/-- The statuses routed to the `in_progress` bucket
(the tuple `('IN_PROGRESS', 'IN_REVIEW', 'ITERATING')` in the source). -/
def IN_PROGRESS_STATUSES : List String := ["IN_PROGRESS", "IN_REVIEW", "ITERATING"]

/-- One task section of `plan.md`, as captured by the line-anchored regexes:
each field is the raw captured group of the first matching line of the
section, or `none` when no line of the section matches.
`statusTok` / `priorityTok` are `(\w+)` captures, the rest are `(.+)` captures. -/
structure RawSection where
  statusTok : Option String
  depsRaw : Option (List Char)
  branchRaw : Option (List Char)
  priorityTok : Option String
  descRaw : Option (List Char)
deriving DecidableEq, Repr

/-- Parsed attributes of one task (`task_info` dict in `parse_plan`). -/
structure TaskInfo where
  status : String
  dependencies : List String
  branch : Option String
  priority : Option String
  description : Option String
deriving DecidableEq, Repr

/-- Status extraction (`parse_plan`, lines 127-132): upper-case the captured
token and keep it only when it is a valid status, else the default PENDING. -/
def parseStatusTok (tok : Option String) : String :=
  match tok with
  | none => "PENDING"
  | some s =>
    let u := pyUpperS s
    if u ∈ VALID_STATUSES then u else "PENDING"

/-- Whole-value sentinels for the dependency line (`('none', 'n/a', '-', '')`). -/
def depSentinels : List (List Char) :=
  [String.toList "none", String.toList "n/a", String.toList "-", []]

/-- Per-entry sentinels inside the dependency list (`('none', 'n/a')`). -/
def entrySentinels : List (List Char) :=
  [String.toList "none", String.toList "n/a"]

/-- Dependency extraction (`parse_plan`, lines 137-145): strip the captured
value; sentinel values mean no dependencies; otherwise split on commas,
dropping entries that are empty or sentinels after stripping whitespace, and
stripping whitespace then backquotes from each kept entry. -/
def parseDepsValue (raw : List Char) : List (List Char) :=
  let depsStr := pyStrip raw
  if lowerChars depsStr ∈ depSentinels then []
  else
    (splitComma depsStr).filterMap (fun dep =>
      let t := pyStrip dep
      if t ≠ [] ∧ lowerChars t ∉ entrySentinels then some (stripBackquotes t) else none)

/-- Dependencies of a section: the default `[]` when no Dependencies line. -/
def parseDepsTok (tok : Option (List Char)) : List String :=
  match tok with
  | none => []
  | some raw => (parseDepsValue raw).map (fun l => String.mk l)

/-- Build the `task_info` dict for one section (`parse_plan`, lines 119-162). -/
def parseSection (sec : RawSection) : TaskInfo :=
  { status := parseStatusTok sec.statusTok
  , dependencies := parseDepsTok sec.depsRaw
  , branch := sec.branchRaw.map (fun l => String.mk (pyStrip l))
  , priority := sec.priorityTok.map pyUpperS
  , description := sec.descRaw.map (fun l => String.mk (pyStrip l)) }

/-- The `tasks` dict: association list with distinct keys, in insertion order. -/
abbrev Tasks := List (String × TaskInfo)

/-- Python `tasks.get(name)`: first binding of `name`, if any. -/
def lookupTask : Tasks → String → Option TaskInfo
  | [], _ => none
  | (k, v) :: rest, name => if k = name then some v else lookupTask rest name

/-- Python `tasks[name] = info` (dict assignment): replace the binding of an
existing key in place, else append a new binding at the end (dict
insertion-order semantics). -/
def dictInsert : Tasks → String → TaskInfo → Tasks
  | [], k, v => [(k, v)]
  | (a, b) :: rest, k, v =>
    if a = k then (k, v) :: rest else (a, b) :: dictInsert rest k v

/-- The list of task sections found by the task-header regex, with the
captured task name, in document order. -/
abbrev PlanDoc := List (String × RawSection)

/-- The section loop of `parse_plan` (lines 109-162): later sections with the
same name overwrite earlier ones. -/
def buildTasks (doc : PlanDoc) : Tasks :=
  doc.foldl (fun m s => dictInsert m s.1 (parseSection s.2)) []

/-- Outcome of attempting to read `plan.md` from the workspace. -/
inductive ReadOutcome where
  | missing
  | readError (msg : String)
  | ok (doc : PlanDoc)
deriving DecidableEq

/-- `Bool`-valued test for the `ok` constructor. -/
def ReadOutcome.isOk : ReadOutcome → Bool
  | .ok _ => true
  | _ => false

/-- The dict returned by `parse_plan` (`task_count` is only meaningful on
success; Python omits the key on failure, modelled here as `0`). -/
structure PlanResult where
  success : Bool
  tasks : Tasks
  task_count : Nat
  error : Option String
  hint : Option String
deriving DecidableEq

/-- `parse_plan` (lines 46-168): failure results for a missing or unreadable
`plan.md`, else the parsed task dict. -/
def parse_plan (workspacePath : String) (r : ReadOutcome) : PlanResult :=
  match r with
  | .missing =>
    { success := false
    , tasks := []
    , task_count := 0
    , error := some ("plan.md not found at " ++ workspacePath ++ "/plan.md")
    , hint := some "Create a plan.md file or run 'operator plan' first" }
  | .readError msg =>
    { success := false
    , tasks := []
    , task_count := 0
    , error := some ("Failed to read plan.md: " ++ msg)
    , hint := none }
  | .ok doc =>
    let tasks := buildTasks doc
    { success := true
    , tasks := tasks
    , task_count := tasks.length
    , error := none
    , hint := none }

/-! ## `plan_parser.py` — `get_unblocked_tasks` -/

/-- The condition under which a dependency is appended to `missing`
(`get_unblocked_tasks`, lines 239-245): not found in the plan, or found with
a non-completed status. -/
def depIsMissing (tasks : Tasks) (dep : String) : Bool :=
  match lookupTask tasks dep with
  | none => true
  | some i => decide (i.status ∉ COMPLETED_STATUSES)

/-- Entry of the `blocked` dict. -/
structure BlockedInfo where
  missing : List String
  status : String
deriving DecidableEq

/-- The four buckets computed by the loop in `get_unblocked_tasks`. -/
structure GubBuckets where
  unblocked : List String
  blocked : List (String × BlockedInfo)
  in_progress : List String
  completed : List String
deriving DecidableEq

/-- One iteration of the categorization loop of `get_unblocked_tasks`
(lines 215-253): sort `name` into a bucket according to `ti`; `all` is the
full task dict used for dependency lookups, `b` the buckets built so far. -/
def gubStep (all : Tasks) (name : String) (ti : TaskInfo) (b : GubBuckets) : GubBuckets :=
  if ti.status ∈ COMPLETED_STATUSES then
    { b with completed := name :: b.completed }
  else if ti.status ∈ IN_PROGRESS_STATUSES then
    { b with in_progress := name :: b.in_progress }
  else if ti.status = "ABANDONED" then b
  else
    let deps := ti.dependencies
    if deps.isEmpty then
      { b with unblocked := name :: b.unblocked }
    else
      let missing := deps.filter (fun d => depIsMissing all d)
      if missing.isEmpty then
        { b with unblocked := name :: b.unblocked }
      else
        { b with blocked := (name, ⟨missing, ti.status⟩) :: b.blocked }

/-- The categorization loop of `get_unblocked_tasks` over the remaining
iteration suffix (the loop appends, so the head's contribution is pushed
onto the buckets of the rest). -/
def gubLoop (all : Tasks) : Tasks → GubBuckets
  | [] => ⟨[], [], [], []⟩
  | (name, ti) :: rest => gubStep all name ti (gubLoop all rest)

/-- The dict returned by `get_unblocked_tasks`. -/
structure UnblockedResult where
  success : Bool
  error : Option String
  unblocked : List String
  blocked : List (String × BlockedInfo)
  in_progress : List String
  completed : List String
deriving DecidableEq

/-- `get_unblocked_tasks` (lines 171-261). -/
def get_unblocked_tasks (workspacePath : String) (r : ReadOutcome) : UnblockedResult :=
  let plan := parse_plan workspacePath r
  if plan.success then
    let b := gubLoop plan.tasks plan.tasks
    { success := true
    , error := none
    , unblocked := b.unblocked
    , blocked := b.blocked
    , in_progress := b.in_progress
    , completed := b.completed }
  else
    { success := false
    , error := some (plan.error.getD "Failed to parse plan")
    , unblocked := []
    , blocked := []
    , in_progress := []
    , completed := [] }

/-! ## `plan_parser.py` — `check_dependencies` -/

/-- The condition under which a dependency is appended to `completed`
(`check_dependencies`, lines 349-357): found in the plan with a completed
status; absent or non-completed dependencies go to `missing`. -/
def depIsCompleted (tasks : Tasks) (dep : String) : Bool :=
  match lookupTask tasks dep with
  | none => false
  | some i => decide (i.status ∈ COMPLETED_STATUSES)

/-- The dict returned by `check_dependencies`; keys absent from a given
Python return dict are modelled as `none` / `[]`. -/
structure CheckResult where
  success : Bool
  can_spawn : Bool
  task_exists : Bool
  status : Option String
  missing : List String
  completed : List String
  warning : Option String
  info : Option String
  error : Option String
  hint : Option String
deriving DecidableEq

/-- Body of `check_dependencies` after the plan parse succeeded
(lines 295-374). -/
def check_dependencies_with (task_name : String) (tasks : Tasks) : CheckResult :=
  match lookupTask tasks task_name with
    | none =>
      { success := true, can_spawn := true, task_exists := false, status := none
      , missing := [], completed := []
      , warning := some ("Task '" ++ task_name ++ "' not found in plan.md - spawning anyway")
      , info := none, error := none, hint := none }
    | some ti =>
      let st := ti.status
      let deps := ti.dependencies
      if st ∈ COMPLETED_STATUSES then
        { success := true, can_spawn := false, task_exists := true, status := some st
        , missing := [], completed := deps
        , warning := some ("Task '" ++ task_name ++ "' is already " ++ st)
        , info := none, error := none, hint := none }
      else if st ∈ IN_PROGRESS_STATUSES then
        { success := true, can_spawn := true, task_exists := true, status := some st
        , missing := [], completed := []
        , warning := none
        , info := some ("Task '" ++ task_name ++ "' is " ++ st ++ " - re-spawning")
        , error := none, hint := none }
      else if deps.isEmpty then
        { success := true, can_spawn := true, task_exists := true, status := some st
        , missing := [], completed := []
        , warning := none, info := none, error := none, hint := none }
      else
        let missing := deps.filter (fun d => !depIsCompleted tasks d)
        let completedDeps := deps.filter (fun d => depIsCompleted tasks d)
        let canSpawn := missing.isEmpty
        { success := true, can_spawn := canSpawn, task_exists := true, status := some st
        , missing := missing, completed := completedDeps
        , warning := none, info := none
        , error := if canSpawn then none
                   else some ("Dependencies not met: " ++ String.intercalate ", " missing)
        , hint := if canSpawn then none
                  else some "Complete dependencies first or use --force to override" }

/-- `check_dependencies` (lines 264-374). -/
def check_dependencies (task_name : String) (workspacePath : String)
    (r : ReadOutcome) : CheckResult :=
  let plan := parse_plan workspacePath r
  if plan.success then
    check_dependencies_with task_name plan.tasks
  else
    { success := false, can_spawn := false, task_exists := false, status := none
    , missing := [], completed := []
    , warning := none, info := none
    , error := some (plan.error.getD "Failed to parse plan"), hint := none }

/-! ## `git_ops.py` — conflict classification, `delete_branch`

The subprocess boundary is modelled by passing the git command's
`(returncode, stdout, stderr)` as explicit inputs; the dict-building logic
on those values is translated from the source.  `make_error` and the
`*_error` helpers (from `errors.py`) all produce dicts with
`success = False`; only the fields relevant to the claims are modelled. -/

/-- The conflict test shared by `rebase_branch` (line 158) and
`merge_branch` (line 238): `"CONFLICT" in stderr or "conflict" in
stdout.lower()`. -/
def hasConflictMarker (stdout stderr : List Char) : Bool :=
  decide (String.toList "CONFLICT" <:+: stderr) ||
    decide (String.toList "conflict" <:+: lowerChars stdout)

/-- "The substring CONFLICT occurs case-insensitively in `s`" — the reading
used by the specification's claim. -/
def conflictCaseInsensitive (s : List Char) : Bool :=
  decide (String.toList "conflict" <:+: lowerChars s)

/-- Result dict of `rebase_branch` restricted to the claim-relevant keys. -/
structure RebaseResult where
  success : Bool
  conflicts : Bool
  aborted : Bool
  error_code : Option String
deriving DecidableEq

/-- `rebase_branch` (lines 129-195), as a function of the `git rebase`
command's outcome. -/
def rebase_branch (abort_on_conflict : Bool) (returncode : Int)
    (stdout stderr : List Char) : RebaseResult :=
  if returncode ≠ 0 then
    let hasConflicts := hasConflictMarker stdout stderr
    if hasConflicts && abort_on_conflict then
      { success := false, conflicts := true, aborted := true
      , error_code := some "REBASE_CONFLICT_ABORTED" }
    else
      { success := false, conflicts := hasConflicts, aborted := false
      , error_code := some "REBASE_FAILED" }
  else
    { success := true, conflicts := false, aborted := false, error_code := none }

/-- Result dict of `merge_branch` restricted to the claim-relevant keys
(`conflicts` is absent from the Python dict outside the conflict branch,
modelled as `false`). -/
structure MergeResult where
  success : Bool
  conflicts : Bool
  error_code : Option String
deriving DecidableEq

/-- `merge_branch` (lines 198-261), as a function of the `git switch` and
`git merge` command outcomes. -/
def merge_branch (switch_returncode returncode : Int)
    (stdout stderr : List Char) : MergeResult :=
  if switch_returncode ≠ 0 then
    { success := false, conflicts := false, error_code := some "CHECKOUT_FAILED" }
  else if returncode ≠ 0 then
    if hasConflictMarker stdout stderr then
      { success := false, conflicts := true, error_code := some "MERGE_CONFLICT" }
    else
      { success := false, conflicts := false, error_code := some "MERGE_FAILED" }
  else
    { success := true, conflicts := false, error_code := none }

/-- Result dict of `delete_branch`. -/
structure DeleteResult where
  success : Bool
  local_deleted : Bool
  remote_deleted : Bool
  errors : List (List Char)
deriving DecidableEq

/-- `delete_branch` (lines 264-315), as a function of the local
`git branch -d` (or `-D`) outcome and (when `delete_remote`) the remote
`git push origin --delete` outcome. -/
def delete_branch (local_returncode : Int) (local_stderr : List Char)
    (delete_remote : Bool) (remote_returncode : Int)
    (remote_stderr : List Char) : DeleteResult :=
  let localDeleted := local_returncode = 0
  let errorsLocal : List (List Char) :=
    if local_returncode = 0 then []
    else [String.toList "Local delete failed: " ++ local_stderr]
  let remoteDeleted := delete_remote && remote_returncode = 0
  let errorsRemote : List (List Char) :=
    if delete_remote && !(remote_returncode = 0 : Bool) then
      [String.toList "Remote delete: " ++ pyStrip remote_stderr]
    else []
  { success := localDeleted
  , local_deleted := localDeleted
  , remote_deleted := remoteDeleted
  , errors := errorsLocal ++ errorsRemote }

/-! ## `config.py` — defaults and `workspace.json` loading -/

/-- `DEFAULT_TEST_TIMEOUT` (line 34). -/
def DEFAULT_TEST_TIMEOUT : Int := 300

/-- `DEFAULT_MODEL` (line 35). -/
def DEFAULT_MODEL : String := "opus"

/-- `DEFAULT_HEALTH_CHECK_TIMEOUT` (line 36). -/
def DEFAULT_HEALTH_CHECK_TIMEOUT : Int := 600

/-- `DEFAULT_LOCK_TIMEOUT` (line 37). -/
def DEFAULT_LOCK_TIMEOUT : Int := 60

/-- `DEFAULT_MAIN_BRANCH` (line 41). -/
def DEFAULT_MAIN_BRANCH : String := "main"

/-- The `WorkspaceConfig` dataclass (lines 77-105), with its field defaults. -/
structure WorkspaceConfig where
  test_command : Option String := none
  test_timeout : Int := DEFAULT_TEST_TIMEOUT
  default_model : String := DEFAULT_MODEL
  health_check_timeout : Int := DEFAULT_HEALTH_CHECK_TIMEOUT
  lock_timeout : Int := DEFAULT_LOCK_TIMEOUT
  auto_sync_after_accept : Bool := true
  push_after_accept : Bool := true
  delete_remote_branch : Bool := true
  main_branch : String := DEFAULT_MAIN_BRANCH
  ticket_prefix : Option String := none
deriving DecidableEq

/-- The parsed JSON object of `workspace.json`: each field is `some v` when
the key is present (with a value of the expected JSON type) and `none` when
absent.  Keys bound to values of the wrong JSON type also fail validation in
the source; that path is subsumed by the per-field validation errors here. -/
structure ConfigData where
  test_command : Option (Option String) := none
  test_timeout : Option Int := none
  default_model : Option String := none
  health_check_timeout : Option Int := none
  lock_timeout : Option Int := none
  auto_sync_after_accept : Option Bool := none
  push_after_accept : Option Bool := none
  delete_remote_branch : Option Bool := none
  main_branch : Option String := none
  ticket_prefix : Option (Option String) := none
deriving DecidableEq

/-- A raised `ConfigValidationError`, identified by its `field`. -/
structure ConfigValidationError where
  field : String
deriving DecidableEq

/-- `if "test_command" in data:` block of `from_dict` (lines 128-137). -/
def setTestCommand (data : ConfigData) (c : WorkspaceConfig) :
    Except ConfigValidationError WorkspaceConfig :=
  match data.test_command with
  | none => .ok c
  | some v => .ok { c with test_command := v }

/-- `if "test_timeout" in data:` block of `from_dict` (lines 139-148). -/
def setTestTimeout (data : ConfigData) (c : WorkspaceConfig) :
    Except ConfigValidationError WorkspaceConfig :=
  match data.test_timeout with
  | none => .ok c
  | some v => if v ≤ 0 then .error ⟨"test_timeout"⟩ else .ok { c with test_timeout := v }

/-- `if "default_model" in data:` block of `from_dict` (lines 150-160). -/
def setDefaultModel (data : ConfigData) (c : WorkspaceConfig) :
    Except ConfigValidationError WorkspaceConfig :=
  match data.default_model with
  | none => .ok c
  | some v =>
    if String.mk (lowerChars v.toList) ∉ ["opus", "sonnet", "haiku"] then
      .error ⟨"default_model"⟩
    else .ok { c with default_model := String.mk (lowerChars v.toList) }

/-- `if "health_check_timeout" in data:` block of `from_dict` (lines 162-171). -/
def setHealthCheckTimeout (data : ConfigData) (c : WorkspaceConfig) :
    Except ConfigValidationError WorkspaceConfig :=
  match data.health_check_timeout with
  | none => .ok c
  | some v =>
    if v ≤ 0 then .error ⟨"health_check_timeout"⟩
    else .ok { c with health_check_timeout := v }

/-- `if "lock_timeout" in data:` block of `from_dict` (lines 173-182). -/
def setLockTimeout (data : ConfigData) (c : WorkspaceConfig) :
    Except ConfigValidationError WorkspaceConfig :=
  match data.lock_timeout with
  | none => .ok c
  | some v => if v ≤ 0 then .error ⟨"lock_timeout"⟩ else .ok { c with lock_timeout := v }

/-- `if "auto_sync_after_accept" in data:` block of `from_dict` (lines 184-193). -/
def setAutoSync (data : ConfigData) (c : WorkspaceConfig) :
    Except ConfigValidationError WorkspaceConfig :=
  match data.auto_sync_after_accept with
  | none => .ok c
  | some v => .ok { c with auto_sync_after_accept := v }

/-- `if "push_after_accept" in data:` block of `from_dict` (lines 195-204). -/
def setPushAfterAccept (data : ConfigData) (c : WorkspaceConfig) :
    Except ConfigValidationError WorkspaceConfig :=
  match data.push_after_accept with
  | none => .ok c
  | some v => .ok { c with push_after_accept := v }

/-- `if "delete_remote_branch" in data:` block of `from_dict` (lines 206-215). -/
def setDeleteRemoteBranch (data : ConfigData) (c : WorkspaceConfig) :
    Except ConfigValidationError WorkspaceConfig :=
  match data.delete_remote_branch with
  | none => .ok c
  | some v => .ok { c with delete_remote_branch := v }

/-- `if "main_branch" in data:` block of `from_dict` (lines 217-226). -/
def setMainBranch (data : ConfigData) (c : WorkspaceConfig) :
    Except ConfigValidationError WorkspaceConfig :=
  match data.main_branch with
  | none => .ok c
  | some v =>
    if pyStripS v = "" then .error ⟨"main_branch"⟩
    else .ok { c with main_branch := pyStripS v }

/-- `if "ticket_prefix" in data:` block of `from_dict` (lines 228-237). -/
def setTicketPrefixField (data : ConfigData) (c : WorkspaceConfig) :
    Except ConfigValidationError WorkspaceConfig :=
  match data.ticket_prefix with
  | none => .ok c
  | some v => .ok { c with ticket_prefix := v }

/-- `WorkspaceConfig.from_dict` (lines 111-239): start from the dataclass
defaults, then validate and set each present key in source order, raising at
the first invalid value. -/
def WorkspaceConfig.from_dict (data : ConfigData) :
    Except ConfigValidationError WorkspaceConfig :=
  (.ok {} : Except ConfigValidationError WorkspaceConfig) >>=
    setTestCommand data >>= setTestTimeout data >>= setDefaultModel data >>=
    setHealthCheckTimeout data >>= setLockTimeout data >>= setAutoSync data >>=
    setPushAfterAccept data >>= setDeleteRemoteBranch data >>= setMainBranch data >>=
    setTicketPrefixField data

/-- State of the `workspace.json` file seen by `load_config`. -/
inductive ConfigFile where
  | absent
  | invalidJson (msg : String)
  | parsed (data : ConfigData)
deriving DecidableEq

/-- `load_config` (lines 251-327), cache bypassed (`force_reload` path):
`success` together with the loaded config when there is one. -/
def load_config (file : ConfigFile) : Option WorkspaceConfig :=
  match file with
  | .absent => some {}
  | .invalidJson _ => none
  | .parsed data =>
    match WorkspaceConfig.from_dict data with
    | .ok c => some c
    | .error _ => none

/-- `get_config` (lines 330-348): always yields a config, using the
dataclass defaults when loading fails. -/
def get_config (file : ConfigFile) : WorkspaceConfig :=
  match load_config file with
  | some c => c
  | none => {}

/-! ## `validation.py` — `validate_ticket` -/

/-- The character class `[A-Z]`. -/
def isUpperAlpha (c : Char) : Bool := 'A' ≤ c && c ≤ 'Z'

/-- The character class `[0-9]`. -/
def isDigitCh (c : Char) : Bool := '0' ≤ c && c ≤ '9'

/-- `TICKET_PATTERN = re.compile(r'^[A-Z]{1,10}-[0-9]{1,10}$')` (line 13),
as a whole-string matcher.  Because `[A-Z]` never matches `-`, the regex
matches exactly the strings of 1-10 uppercase letters, a hyphen, and 1-10
digits; `validate_ticket` only applies it to stripped strings, for which
`$` is equivalent to end-of-string. -/
def ticketPatternMatch (s : List Char) : Bool :=
  let p := s.takeWhile isUpperAlpha
  match s.dropWhile isUpperAlpha with
  | '-' :: d =>
    decide (1 ≤ p.length) && decide (p.length ≤ 10) &&
      decide (1 ≤ d.length) && decide (d.length ≤ 10) && d.all isDigitCh
  | _ => false

/-- `validate_ticket` (lines 86-125): strip, upper-case, then accept exactly
the pattern matches; `none` models a raised `ValidationError`. -/
def validate_ticket (ticket : List Char) : Option (List Char) :=
  let t := upperChars (pyStrip ticket)
  if t = [] then none
  else if ticketPatternMatch t then some t
  else none

/-! ## Auxiliary definitions used to state the claims -/

/-- A dependency name resolves to a task in a completed-class status
(the positive form used by the specification's claims; an absent name never
satisfies this). -/
def depSatisfied (tasks : Tasks) (d : String) : Prop :=
  ∃ i, lookupTask tasks d = some i ∧ i.status ∈ COMPLETED_STATUSES

/-- The "remaining" tasks of the claims: status PENDING or BLOCKED, the
statuses that reach the dependency evaluation. -/
def remainingStatus (ti : TaskInfo) : Prop :=
  ti.status = "PENDING" ∨ ti.status = "BLOCKED"

/-- The last section bound to a name in document order. -/
def lastBindingOf : PlanDoc → String → Option RawSection
  | [], _ => none
  | p :: rest, name =>
    match lastBindingOf rest name with
    | some sec => some sec
    | none => if p.1 = name then some p.2 else none

/-- Dependency-line parsing restated from the claim's wording: comma-split
the trimmed value, trim each entry of whitespace, drop empty and sentinel
entries, and trim backquotes from the kept entries (sentinel whole-values
yield the empty list). -/
def parseDepsClaim (raw : List Char) : List (List Char) :=
  let v := pyStrip raw
  if lowerChars v = String.toList "none" ∨ lowerChars v = String.toList "n/a" ∨
      lowerChars v = String.toList "-" ∨ v = [] then []
  else
    ((((splitComma v).map pyStrip).filter
        (fun t => !t.isEmpty && !(lowerChars t = String.toList "none" : Bool) &&
          !(lowerChars t = String.toList "n/a" : Bool))).map stripBackquotes)

/-- A small plan used to instantiate the universally quantified theorems:
`task-a` PENDING with no dependencies, `task-b` PENDING depending on
`task-a`, `task-c` COMPLETED, `task-d` PENDING depending on `task-c`. -/
def exDoc : PlanDoc :=
  [("task-a", ⟨some "PENDING", none, none, none, none⟩),
   ("task-b", ⟨some "PENDING", some (String.toList "task-a"), none, none, none⟩),
   ("task-c", ⟨some "COMPLETED", none, none, none, none⟩),
   ("task-d", ⟨some "PENDING", some (String.toList "task-c"), none, none, none⟩)]

/-- A plan with a duplicated task name, for the duplicate-section theorem:
`dup` appears twice (PENDING first, then COMPLETED). -/
def exDocDup : PlanDoc :=
  [("dup", ⟨some "PENDING", none, none, none, none⟩),
   ("solo", ⟨some "PENDING", none, none, none, none⟩),
   ("dup", ⟨some "COMPLETED", some (String.toList "solo"), none, none, none⟩)]

/-- A two-task dependency cycle, for the cycle clause: `cyc-a` and `cyc-b`
PENDING, each depending on the other. -/
def exDocCycle : PlanDoc :=
  [("cyc-a", ⟨some "PENDING", some (String.toList "cyc-b"), none, none, none⟩),
   ("cyc-b", ⟨some "PENDING", some (String.toList "cyc-a"), none, none, none⟩)]

/-! # Theorems -/

/-! ## Generic helper lemmas -/

theorem except_bind_ok {ε α β : Type} (x : Except ε α) (f : α → Except ε β) (c : β)
    (h : (x >>= f) = .ok c) : ∃ b, x = .ok b ∧ f b = .ok c := by
  cases x with
  | ok a => exact ⟨a, rfl, h⟩
  | error e => simp [Bind.bind, Except.bind] at h

theorem string_append_ne_empty_right (s t : String) (h : ¬ t = "") : ¬ (s ++ t = "") := by
  intro he
  apply h
  have hd := congrArg String.data he
  simp [String.data_append] at hd
  exact String.ext hd.2

theorem string_append_ne_empty_left (s t : String) (h : ¬ s = "") : ¬ (s ++ t = "") := by
  intro he
  apply h
  have hd := congrArg String.data he
  simp [String.data_append] at hd
  exact String.ext hd.1

/-! ## Config helper lemmas: every `from_dict` block other than the
`lock_timeout` one leaves `lock_timeout` unchanged -/

theorem setTestCommand_lock (data : ConfigData) (c c' : WorkspaceConfig)
    (h : setTestCommand data c = .ok c') : c'.lock_timeout = c.lock_timeout := by
  unfold setTestCommand at h
  split at h <;> cases h <;> rfl

theorem setTestTimeout_lock (data : ConfigData) (c c' : WorkspaceConfig)
    (h : setTestTimeout data c = .ok c') : c'.lock_timeout = c.lock_timeout := by
  unfold setTestTimeout at h
  split at h
  · cases h
    rfl
  · split at h
    · simp at h
    · cases h
      rfl

theorem setDefaultModel_lock (data : ConfigData) (c c' : WorkspaceConfig)
    (h : setDefaultModel data c = .ok c') : c'.lock_timeout = c.lock_timeout := by
  unfold setDefaultModel at h
  split at h
  · cases h
    rfl
  · split at h
    · simp at h
    · cases h
      rfl

theorem setHealthCheckTimeout_lock (data : ConfigData) (c c' : WorkspaceConfig)
    (h : setHealthCheckTimeout data c = .ok c') : c'.lock_timeout = c.lock_timeout := by
  unfold setHealthCheckTimeout at h
  split at h
  · cases h
    rfl
  · split at h
    · simp at h
    · cases h
      rfl

theorem setAutoSync_lock (data : ConfigData) (c c' : WorkspaceConfig)
    (h : setAutoSync data c = .ok c') : c'.lock_timeout = c.lock_timeout := by
  unfold setAutoSync at h
  split at h <;> cases h <;> rfl

theorem setPushAfterAccept_lock (data : ConfigData) (c c' : WorkspaceConfig)
    (h : setPushAfterAccept data c = .ok c') : c'.lock_timeout = c.lock_timeout := by
  unfold setPushAfterAccept at h
  split at h <;> cases h <;> rfl

theorem setDeleteRemoteBranch_lock (data : ConfigData) (c c' : WorkspaceConfig)
    (h : setDeleteRemoteBranch data c = .ok c') : c'.lock_timeout = c.lock_timeout := by
  unfold setDeleteRemoteBranch at h
  split at h <;> cases h <;> rfl

theorem setMainBranch_lock (data : ConfigData) (c c' : WorkspaceConfig)
    (h : setMainBranch data c = .ok c') : c'.lock_timeout = c.lock_timeout := by
  unfold setMainBranch at h
  split at h
  · cases h
    rfl
  · split at h
    · simp at h
    · cases h
      rfl

theorem setTicketPrefixField_lock (data : ConfigData) (c c' : WorkspaceConfig)
    (h : setTicketPrefixField data c = .ok c') : c'.lock_timeout = c.lock_timeout := by
  unfold setTicketPrefixField at h
  split at h <;> cases h <;> rfl

theorem setLockTimeout_none (data : ConfigData) (c : WorkspaceConfig)
    (h : data.lock_timeout = none) : setLockTimeout data c = .ok c := by
  unfold setLockTimeout
  rw [h]

/-! ## C4 -/

/-- C4, counterexample: the claim says the default `lock_timeout` is 30
seconds, but with no `workspace.json` the configuration's `lock_timeout`
is not 30. -/
theorem c4_counterexample : ¬ ((get_config ConfigFile.absent).lock_timeout = 30) := by
  decide

/-- C4 (amended): when the workspace configuration supplies no
`lock_timeout` value (no `workspace.json`, or the key absent), the
lock-acquisition timeout falls back to 60 seconds (`DEFAULT_LOCK_TIMEOUT`),
not 30. -/
theorem c4_lock_timeout_default_60 :
    DEFAULT_LOCK_TIMEOUT = 60
  ∧ (get_config ConfigFile.absent).lock_timeout = 60
  ∧ load_config ConfigFile.absent = some ({} : WorkspaceConfig)
  ∧ (∀ data : ConfigData, data.lock_timeout = none →
      ∀ c, WorkspaceConfig.from_dict data = Except.ok c → c.lock_timeout = 60) := by
  refine ⟨rfl, rfl, rfl, ?_⟩
  intro data hnone c hok
  unfold WorkspaceConfig.from_dict at hok
  obtain ⟨b9, hc9, hs10⟩ := except_bind_ok _ _ _ hok
  obtain ⟨b8, hc8, hs9⟩ := except_bind_ok _ _ _ hc9
  obtain ⟨b7, hc7, hs8⟩ := except_bind_ok _ _ _ hc8
  obtain ⟨b6, hc6, hs7⟩ := except_bind_ok _ _ _ hc7
  obtain ⟨b5, hc5, hs6⟩ := except_bind_ok _ _ _ hc6
  obtain ⟨b4, hc4, hs5⟩ := except_bind_ok _ _ _ hc5
  obtain ⟨b3, hc3, hs4⟩ := except_bind_ok _ _ _ hc4
  obtain ⟨b2, hc2, hs3⟩ := except_bind_ok _ _ _ hc3
  obtain ⟨b1, hc1, hs2⟩ := except_bind_ok _ _ _ hc2
  obtain ⟨b0, hc0, hs1⟩ := except_bind_ok _ _ _ hc1
  have h0 : b0 = ({} : WorkspaceConfig) := by
    cases hc0
    rfl
  have e5 : b5 = b4 := by
    rw [setLockTimeout_none data b4 hnone] at hs5
    cases hs5
    rfl
  rw [setTicketPrefixField_lock data b9 c hs10, setMainBranch_lock data b8 b9 hs9,
    setDeleteRemoteBranch_lock data b7 b8 hs8, setPushAfterAccept_lock data b6 b7 hs7,
    setAutoSync_lock data b5 b6 hs6, e5, setHealthCheckTimeout_lock data b3 b4 hs4,
    setDefaultModel_lock data b2 b3 hs3, setTestTimeout_lock data b1 b2 hs2,
    setTestCommand_lock data b0 b1 hs1, h0]
  rfl

/-- C4 witness: the empty configuration dict omits `lock_timeout`, and
`from_dict` of it yields the 60-second default. -/
theorem c4_witness :
    ({} : ConfigData).lock_timeout = none ∧ ({} : WorkspaceConfig).lock_timeout = 60 :=
  ⟨rfl, c4_lock_timeout_default_60.2.2.2 {} rfl {} rfl⟩

/-! ## C9 -/

/-- C9: `delete_branch`'s overall `success` equals whether the local branch
deletion succeeded, regardless of whether remote deletion was requested or
of its outcome; a failed remote deletion (with `delete_remote=true`) only
appends a message to `errors` and leaves `remote_deleted=false`, while a
failed local deletion yields `success=false` even when the remote deletion
succeeded. -/
theorem c9_delete_branch_success_from_local (lrc : Int) (lerr : List Char)
    (dr : Bool) (rrc : Int) (rerr : List Char) :
    (delete_branch lrc lerr dr rrc rerr).success =
      (delete_branch lrc lerr dr rrc rerr).local_deleted
  ∧ (delete_branch lrc lerr dr rrc rerr).success = decide (lrc = 0)
  ∧ (dr = true → ¬ rrc = 0 →
      (delete_branch lrc lerr dr rrc rerr).remote_deleted = false ∧
      (String.toList "Remote delete: " ++ pyStrip rerr) ∈
        (delete_branch lrc lerr dr rrc rerr).errors)
  ∧ (¬ lrc = 0 → (delete_branch lrc lerr dr rrc rerr).success = false)
  ∧ (¬ lrc = 0 → dr = true → rrc = 0 →
      (delete_branch lrc lerr dr rrc rerr).success = false ∧
      (delete_branch lrc lerr dr rrc rerr).remote_deleted = true) := by
  unfold delete_branch
  by_cases hl : lrc = 0 <;> by_cases hd : dr = true <;> by_cases hr : rrc = 0 <;>
    simp [hl, hd, hr]

/-- C9 witness: local deletion fails (exit 1), remote deletion requested and
fails (exit 3): `success` is false and the remote message is recorded. -/
theorem c9_witness :
    (delete_branch 1 [] true 3 (String.toList " boom ")).success = false ∧
    (delete_branch 1 [] true 3 (String.toList " boom ")).remote_deleted = false :=
  ⟨(c9_delete_branch_success_from_local 1 [] true 3 (String.toList " boom ")).2.2.2.1
      (by decide),
   ((c9_delete_branch_success_from_local 1 [] true 3 (String.toList " boom ")).2.2.1
      rfl (by decide)).1⟩

/-! ## C3 -/

/-- C3, counterexample: with exit code 1, stdout empty and stderr exactly
`conflict` (lower case), the substring CONFLICT occurs case-insensitively in
stderr, yet `rebase_branch` does not classify the failure as a conflict —
the stderr test in the source is case-sensitive. -/
theorem c3_counterexample :
    ¬ (((rebase_branch false 1 (String.toList "") (String.toList "conflict")).conflicts
          = true) ↔
        (conflictCaseInsensitive (String.toList "conflict") ||
          conflictCaseInsensitive (String.toList "")) = true) := by
  decide

/-- C3 (amended): a nonzero git exit in `rebase_branch` or `merge_branch` is
classified as a conflict iff the substring CONFLICT occurs case-sensitively
in stderr, or case-insensitively in stdout; any other nonzero exit is a
non-conflict failure. -/
theorem c3_conflict_classification (a : Bool) (rc : Int) (stdout stderr : List Char)
    (hrc : ¬ rc = 0) :
    (rebase_branch a rc stdout stderr).success = false
  ∧ ((rebase_branch a rc stdout stderr).conflicts = true ↔
      (String.toList "CONFLICT" <:+: stderr ∨
        String.toList "conflict" <:+: lowerChars stdout))
  ∧ (merge_branch 0 rc stdout stderr).success = false
  ∧ ((merge_branch 0 rc stdout stderr).conflicts = true ↔
      (String.toList "CONFLICT" <:+: stderr ∨
        String.toList "conflict" <:+: lowerChars stdout)) := by
  unfold rebase_branch merge_branch hasConflictMarker
  by_cases hm : (decide (String.toList "CONFLICT" <:+: stderr) ||
      decide (String.toList "conflict" <:+: lowerChars stdout)) = true <;>
    by_cases ha : a = true <;>
      simp_all [hrc]

/-- C3 witness: stderr containing upper-case CONFLICT on a failed rebase is
classified as a conflict. -/
theorem c3_witness :
    (rebase_branch true 1 (String.toList "")
        (String.toList "CONFLICT (content): merge conflict")).conflicts = true :=
  ((c3_conflict_classification true 1 (String.toList "")
      (String.toList "CONFLICT (content): merge conflict") (by decide)).2.1).mpr
    (Or.inl (by decide))

/-! ## C7 -/

/-- C7: when `plan.md` is missing or unreadable, `parse_plan` returns a
failure value (`success=false`, a non-empty error message, empty task
mapping) rather than raising, and `get_unblocked_tasks` and
`check_dependencies` propagate this as `success=false` results with
`can_spawn=false` and empty buckets. -/
theorem c7_missing_plan_propagates (ws name : String) (r : ReadOutcome)
    (h : r.isOk = false) :
    (parse_plan ws r).success = false
  ∧ (parse_plan ws r).tasks = []
  ∧ ¬ ((parse_plan ws r).error.getD "" = "")
  ∧ (get_unblocked_tasks ws r).success = false
  ∧ (get_unblocked_tasks ws r).unblocked = []
  ∧ (get_unblocked_tasks ws r).blocked = []
  ∧ (get_unblocked_tasks ws r).in_progress = []
  ∧ (get_unblocked_tasks ws r).completed = []
  ∧ (get_unblocked_tasks ws r).error = (parse_plan ws r).error
  ∧ (check_dependencies name ws r).success = false
  ∧ (check_dependencies name ws r).can_spawn = false
  ∧ (check_dependencies name ws r).missing = []
  ∧ (check_dependencies name ws r).completed = [] := by
  cases r with
  | ok doc => simp [ReadOutcome.isOk] at h
  | missing =>
    refine ⟨rfl, rfl, ?_, ?_⟩
    · simp only [parse_plan, Option.getD_some]
      exact string_append_ne_empty_right _ _ (by decide)
    · simp [parse_plan, get_unblocked_tasks, check_dependencies]
  | readError msg =>
    refine ⟨rfl, rfl, ?_, ?_⟩
    · simp only [parse_plan, Option.getD_some]
      exact string_append_ne_empty_left _ _ (by decide)
    · simp [parse_plan, get_unblocked_tasks, check_dependencies]

/-- C7 witness: instantiated at a missing `plan.md`. -/
theorem c7_witness :
    (parse_plan "ws" ReadOutcome.missing).success = false ∧
    (check_dependencies "t" "ws" ReadOutcome.missing).can_spawn = false :=
  ⟨(c7_missing_plan_propagates "ws" "t" ReadOutcome.missing rfl).1,
   (c7_missing_plan_propagates "ws" "t" ReadOutcome.missing rfl).2.2.2.2.2.2.2.2.2.2.1⟩

/-! ## C5 -/

/-- C5: for every task section, the parsed status equals the upper-cased
Status value whenever that upper-cased value is one of the nine canonical
statuses, and equals PENDING in every other case (unrecognized value, or no
Status line); status parsing is total and always yields a canonical status. -/
theorem c5_status_normalization (sec : RawSection) :
    (parseSection sec).status = parseStatusTok sec.statusTok
  ∧ (∀ s, sec.statusTok = some s → pyUpperS s ∈ VALID_STATUSES →
      (parseSection sec).status = pyUpperS s)
  ∧ (∀ s, sec.statusTok = some s → pyUpperS s ∉ VALID_STATUSES →
      (parseSection sec).status = "PENDING")
  ∧ (sec.statusTok = none → (parseSection sec).status = "PENDING")
  ∧ (parseSection sec).status ∈ VALID_STATUSES
  ∧ VALID_STATUSES.length = 9 := by
  refine ⟨rfl, ?_, ?_, ?_, ?_, rfl⟩
  · intro s hs hmem
    simp [parseSection, parseStatusTok, hs, hmem]
  · intro s hs hmem
    simp [parseSection, parseStatusTok, hs, hmem]
  · intro h
    simp [parseSection, parseStatusTok, h]
  · show parseStatusTok sec.statusTok ∈ VALID_STATUSES
    unfold parseStatusTok
    cases sec.statusTok with
    | none => decide
    | some s =>
      by_cases hmem : pyUpperS s ∈ VALID_STATUSES
      · simp [hmem]
      · simp only [hmem, if_false]
        decide

/-- C5 witness: a lower-case `done` Status value parses to `DONE`. -/
theorem c5_witness :
    (parseSection ⟨some "done", none, none, none, none⟩).status = pyUpperS "done" :=
  (c5_status_normalization ⟨some "done", none, none, none, none⟩).2.1 "done" rfl (by decide)

/-! ## C6 -/

theorem entry_cond_iff (t : List Char) :
    (t ≠ [] ∧ lowerChars t ∉ entrySentinels) ↔
      ((!t.isEmpty && !(lowerChars t = String.toList "none" : Bool) &&
        !(lowerChars t = String.toList "n/a" : Bool)) = true) := by
  simp [entrySentinels, not_or, and_assoc, List.isEmpty_iff]

theorem filterMap_strip_eq (l : List (List Char)) :
    l.filterMap (fun dep =>
      let t := pyStrip dep
      if t ≠ [] ∧ lowerChars t ∉ entrySentinels then some (stripBackquotes t) else none)
  = ((l.map pyStrip).filter
      (fun t => !t.isEmpty && !(lowerChars t = String.toList "none" : Bool) &&
        !(lowerChars t = String.toList "n/a" : Bool))).map stripBackquotes := by
  induction l with
  | nil => rfl
  | cons a l ih =>
    simp only [List.filterMap_cons, List.map_cons, List.filter_cons]
    by_cases hc : pyStrip a ≠ [] ∧ lowerChars (pyStrip a) ∉ entrySentinels
    · rw [if_pos hc, (entry_cond_iff (pyStrip a)).mp hc]
      simp only [if_true, List.map_cons, ih]
    · rw [if_neg hc]
      have hb := (not_iff_not.mpr (entry_cond_iff (pyStrip a))).mp hc
      simp only [Bool.not_eq_true] at hb
      simp only [hb, Bool.false_eq_true, if_false, ih]

/-- C6: for every task section, a Dependencies value that trims and
lower-cases to `none`, `n/a`, `-` or the empty string (or an absent
Dependencies line) parses to the empty dependency list; otherwise the parsed
list is the comma-separated entries, trimmed of whitespace and backquotes,
with empty entries and entries equal (case-insensitively) to `none` or `n/a`
dropped — the source's filter-map loop coincides with that description on
every input. -/
theorem c6_dependency_parsing :
    parseDepsTok none = []
  ∧ (∀ raw, parseDepsTok (some raw) = (parseDepsClaim raw).map (fun l => String.mk l))
  ∧ (∀ raw, parseDepsValue raw = parseDepsClaim raw) := by
  have key : ∀ raw, parseDepsValue raw = parseDepsClaim raw := by
    intro raw
    unfold parseDepsValue parseDepsClaim
    by_cases hs : lowerChars (pyStrip raw) ∈ depSentinels
    · rw [if_pos hs, if_pos]
      revert hs
      simp only [depSentinels, List.mem_cons, List.mem_singleton, List.not_mem_nil,
        or_false, List.map_eq_nil_iff, lowerChars]
      tauto
    · rw [if_neg hs, if_neg]
      · exact filterMap_strip_eq _
      · revert hs
        simp only [depSentinels, List.mem_cons, List.mem_singleton, List.not_mem_nil,
          or_false, List.map_eq_nil_iff, lowerChars]
        tauto
  exact ⟨rfl, fun raw => congrArg _ (key raw), key⟩

/-- C6 witness: a representative Dependencies value with backquotes, blanks
and sentinel entries. -/
theorem c6_witness :
    parseDepsTok (some (String.toList " `dep-a`, dep-b , none, , n/a ")) =
      (parseDepsClaim (String.toList " `dep-a`, dep-b , none, , n/a ")).map
        (fun l => String.mk l) :=
  (c6_dependency_parsing.2.1) (String.toList " `dep-a`, dep-b , none, , n/a ")

/-! ## C10 -/

theorem takeWhile_upper_append (p d : List Char) (h : ∀ c ∈ p, isUpperAlpha c = true) :
    (p ++ '-' :: d).takeWhile isUpperAlpha = p ∧
    (p ++ '-' :: d).dropWhile isUpperAlpha = '-' :: d := by
  induction p with
  | nil =>
    have hdash : isUpperAlpha '-' = false := by decide
    simp [List.takeWhile_cons, List.dropWhile_cons, hdash]
  | cons a p ih =>
    have ha : isUpperAlpha a = true := h a (List.mem_cons_self _ _)
    have hrest := ih (fun c hc => h c (List.mem_cons_of_mem _ hc))
    simp [List.takeWhile_cons, List.dropWhile_cons, ha, hrest.1, hrest.2]

theorem ticketPatternMatch_iff (t : List Char) :
    ticketPatternMatch t = true ↔
      ∃ p d, t = p ++ '-' :: d ∧ (∀ c ∈ p, isUpperAlpha c = true) ∧
        (∀ c ∈ d, isDigitCh c = true) ∧
        1 ≤ p.length ∧ p.length ≤ 10 ∧ 1 ≤ d.length ∧ d.length ≤ 10 := by
  constructor
  · intro h
    unfold ticketPatternMatch at h
    split at h
    · next d heq =>
      simp only [Bool.and_eq_true, decide_eq_true_eq, List.all_eq_true] at h
      obtain ⟨⟨⟨⟨ha, hb⟩, hc2⟩, hd2⟩, he2⟩ := h
      refine ⟨t.takeWhile isUpperAlpha, d, ?_, ?_, he2, ha, hb, hc2, hd2⟩
      · conv_lhs => rw [← List.takeWhile_append_dropWhile (p := isUpperAlpha) (l := t)]
        rw [heq]
      · intro c hc
        exact List.mem_takeWhile_imp hc
    · simp at h
  · rintro ⟨p, d, rfl, hp, hd, h1, h2, h3, h4⟩
    obtain ⟨ht, hdrop⟩ := takeWhile_upper_append p d hp
    unfold ticketPatternMatch
    rw [hdrop, ht]
    simp only [Bool.and_eq_true, decide_eq_true_eq, List.all_eq_true]
    exact ⟨⟨⟨⟨h1, h2⟩, h3⟩, h4⟩, hd⟩

theorem ticket_char_fixed (c : Char)
    (h : isUpperAlpha c = true ∨ isDigitCh c = true ∨ c = '-') :
    pyToUpper c = c ∧ isPySpace c = false := by
  rcases h with h | h | rfl
  · simp only [isUpperAlpha, Bool.and_eq_true, decide_eq_true_eq] at h
    constructor
    · unfold pyToUpper
      rw [if_neg]
      rw [Bool.and_eq_true]
      rintro ⟨hc1, hc2⟩
      rw [decide_eq_true_eq] at hc1
      exact absurd (le_trans hc1 h.2) (by decide)
    · unfold isPySpace
      simp only [Bool.or_eq_false_iff, decide_eq_false_iff_not]
      refine ⟨⟨⟨⟨⟨?_, ?_⟩, ?_⟩, ?_⟩, ?_⟩, ?_⟩ <;>
        · rintro rfl
          revert h
          decide
  · simp only [isDigitCh, Bool.and_eq_true, decide_eq_true_eq] at h
    constructor
    · unfold pyToUpper
      rw [if_neg]
      rw [Bool.and_eq_true]
      rintro ⟨hc1, hc2⟩
      rw [decide_eq_true_eq] at hc1
      exact absurd (le_trans hc1 h.2) (by decide)
    · unfold isPySpace
      simp only [Bool.or_eq_false_iff, decide_eq_false_iff_not]
      refine ⟨⟨⟨⟨⟨?_, ?_⟩, ?_⟩, ?_⟩, ?_⟩, ?_⟩ <;>
        · rintro rfl
          revert h
          decide
  · exact ⟨by decide, by decide⟩

theorem dropWhile_id_of_all_false (m : List Char) (hm : ∀ c ∈ m, isPySpace c = false) :
    m.dropWhile isPySpace = m := by
  cases m with
  | nil => rfl
  | cons a l =>
    rw [List.dropWhile_cons]
    simp [hm a (List.mem_cons_self _ _)]

theorem pyStrip_fixed_of_no_space (l : List Char) (h : ∀ c ∈ l, isPySpace c = false) :
    pyStrip l = l := by
  unfold pyStrip lstripBy rstripBy
  rw [dropWhile_id_of_all_false l h,
    dropWhile_id_of_all_false l.reverse (fun c hc => h c (List.mem_reverse.mp hc)),
    List.reverse_reverse]

theorem upperChars_fixed (l : List Char) (h : ∀ c ∈ l, pyToUpper c = c) :
    upperChars l = l := by
  unfold upperChars
  induction l with
  | nil => rfl
  | cons a l ih =>
    rw [List.map_cons, h a (List.mem_cons_self _ _),
      ih (fun c hc => h c (List.mem_cons_of_mem _ hc))]

theorem ticket_chars_classes (t : List Char) (h : ticketPatternMatch t = true) :
    ∀ c ∈ t, isUpperAlpha c = true ∨ isDigitCh c = true ∨ c = '-' := by
  obtain ⟨p, d, rfl, hp, hd, -⟩ := (ticketPatternMatch_iff t).mp h
  intro c hc
  rcases List.mem_append.mp hc with hc | hc
  · exact Or.inl (hp c hc)
  · rcases List.mem_cons.mp hc with rfl | hc
    · exact Or.inr (Or.inr rfl)
    · exact Or.inr (Or.inl (hd c hc))

/-- C10: `validate_ticket` strips and upper-cases before matching, so every
string whose stripped upper-cased form matches the ticket pattern is
accepted and returned in that normalized form; consequently it is idempotent
on accepted inputs; and the pattern holds exactly of PREFIX-NUMBER strings
(1-10 uppercase letters, a hyphen, 1-10 digits). -/
theorem c10_validate_ticket (s : List Char) :
    (ticketPatternMatch (upperChars (pyStrip s)) = true →
      validate_ticket s = some (upperChars (pyStrip s)))
  ∧ (∀ r, validate_ticket s = some r → validate_ticket r = some r)
  ∧ (ticketPatternMatch (upperChars (pyStrip s)) = true ↔
      ∃ p d, upperChars (pyStrip s) = p ++ '-' :: d ∧
        (∀ c ∈ p, isUpperAlpha c = true) ∧ (∀ c ∈ d, isDigitCh c = true) ∧
        1 ≤ p.length ∧ p.length ≤ 10 ∧ 1 ≤ d.length ∧ d.length ≤ 10) := by
  have accept : ∀ u : List Char, ticketPatternMatch (upperChars (pyStrip u)) = true →
      validate_ticket u = some (upperChars (pyStrip u)) := by
    intro u hu
    have hne : upperChars (pyStrip u) ≠ [] := by
      obtain ⟨p, d, he, -⟩ := (ticketPatternMatch_iff _).mp hu
      rw [he]
      simp
    unfold validate_ticket
    rw [if_neg hne, if_pos hu]
  refine ⟨accept s, ?_, ticketPatternMatch_iff _⟩
  intro r hr
  have hcases : ticketPatternMatch (upperChars (pyStrip s)) = true ∧
      r = upperChars (pyStrip s) := by
    unfold validate_ticket at hr
    by_cases he : upperChars (pyStrip s) = []
    · rw [if_pos he] at hr
      exact absurd hr (by simp)
    · rw [if_neg he] at hr
      by_cases hm : ticketPatternMatch (upperChars (pyStrip s)) = true
      · rw [if_pos hm] at hr
        exact ⟨hm, (Option.some_injective _ hr).symm⟩
      · rw [if_neg hm] at hr
        exact absurd hr (by simp)
  obtain ⟨hm, rfl⟩ := hcases
  have hfix : ∀ c ∈ upperChars (pyStrip s), pyToUpper c = c ∧ isPySpace c = false :=
    fun c hc => ticket_char_fixed c (ticket_chars_classes _ hm c hc)
  have hstrip : pyStrip (upperChars (pyStrip s)) = upperChars (pyStrip s) :=
    pyStrip_fixed_of_no_space _ (fun c hc => (hfix c hc).2)
  have hupper : upperChars (upperChars (pyStrip s)) = upperChars (pyStrip s) := by
    conv in upperChars (upperChars _) => rw [upperChars_fixed _ (fun c hc => (hfix c hc).1)]
  have := accept (upperChars (pyStrip s))
  rw [hstrip, hupper] at this
  exact this hm

/-! ## Task-dict helper lemmas -/

theorem lookupTask_mem (l : Tasks) (x : String) (v : TaskInfo)
    (h : lookupTask l x = some v) : (x, v) ∈ l := by
  induction l with
  | nil => simp [lookupTask] at h
  | cons p rest ih =>
    obtain ⟨k, w⟩ := p
    unfold lookupTask at h
    by_cases hk : k = x
    · rw [if_pos hk] at h
      cases h
      subst hk
      exact List.mem_cons_self _ _
    · rw [if_neg hk] at h
      exact List.mem_cons_of_mem _ (ih h)

theorem mem_lookupTask (l : Tasks) (hn : (l.map Prod.fst).Nodup) (x : String)
    (v : TaskInfo) (h : (x, v) ∈ l) : lookupTask l x = some v := by
  induction l with
  | nil => simp at h
  | cons p rest ih =>
    obtain ⟨k, w⟩ := p
    rw [List.map_cons, List.nodup_cons] at hn
    rcases List.mem_cons.mp h with heq | hmem
    · cases heq
      simp [lookupTask]
    · have hk : ¬ k = x := by
        rintro rfl
        exact hn.1 (List.mem_map.mpr ⟨(k, v), hmem, rfl⟩)
      unfold lookupTask
      rw [if_neg hk]
      exact ih hn.2 hmem

theorem completed_not_in_progress (s : String) (h : s ∈ COMPLETED_STATUSES) :
    s ∉ IN_PROGRESS_STATUSES := by
  simp only [COMPLETED_STATUSES, List.mem_cons, List.not_mem_nil, or_false] at h
  rcases h with rfl | rfl | rfl <;> decide

theorem depIsCompleted_iff (tasks : Tasks) (d : String) :
    depIsCompleted tasks d = true ↔ depSatisfied tasks d := by
  unfold depIsCompleted depSatisfied
  cases h : lookupTask tasks d <;> simp

theorem depIsMissing_iff (tasks : Tasks) (d : String) :
    depIsMissing tasks d = true ↔ ¬ depSatisfied tasks d := by
  unfold depIsMissing depSatisfied
  cases h : lookupTask tasks d <;> simp

theorem depIsMissing_eq_not_completed (tasks : Tasks) (d : String) :
    depIsMissing tasks d = !depIsCompleted tasks d := by
  unfold depIsMissing depIsCompleted
  cases h : lookupTask tasks d <;> simp

/-! ## C2 -/

/-- C2: `check_dependencies` over a parseable plan: an absent task name
gives `can_spawn=true` with a warning; a completed-class task always gives
`can_spawn=false`; an in-progress-class task gives `can_spawn=true`;
otherwise `can_spawn` holds iff every dependency resolves to a
completed-class status (absent names count as missing), and the `missing`
and `completed` lists partition the dependency list. -/
theorem c2_check_dependencies (task_name : String) (tasks : Tasks) :
    (∀ ws doc, check_dependencies task_name ws (ReadOutcome.ok doc) =
       check_dependencies_with task_name (buildTasks doc))
  ∧ (lookupTask tasks task_name = none →
       (check_dependencies_with task_name tasks).can_spawn = true ∧
       (check_dependencies_with task_name tasks).task_exists = false ∧
       ¬ (check_dependencies_with task_name tasks).warning = none)
  ∧ (∀ ti, lookupTask tasks task_name = some ti →
       (ti.status ∈ COMPLETED_STATUSES →
          (check_dependencies_with task_name tasks).can_spawn = false)
     ∧ (ti.status ∈ IN_PROGRESS_STATUSES →
          (check_dependencies_with task_name tasks).can_spawn = true)
     ∧ (ti.status ∉ COMPLETED_STATUSES → ti.status ∉ IN_PROGRESS_STATUSES →
          ((check_dependencies_with task_name tasks).can_spawn = true ↔
             ∀ d ∈ ti.dependencies, depSatisfied tasks d)
        ∧ (check_dependencies_with task_name tasks).missing =
             ti.dependencies.filter (fun d => !depIsCompleted tasks d)
        ∧ (check_dependencies_with task_name tasks).completed =
             ti.dependencies.filter (fun d => depIsCompleted tasks d)
        ∧ (∀ d, d ∈ ti.dependencies ↔
             (d ∈ (check_dependencies_with task_name tasks).missing ∨
              d ∈ (check_dependencies_with task_name tasks).completed))
        ∧ (∀ d, ¬ (d ∈ (check_dependencies_with task_name tasks).missing ∧
              d ∈ (check_dependencies_with task_name tasks).completed))
        ∧ (∀ d, depIsCompleted tasks d = true ↔ depSatisfied tasks d))) := by
  refine ⟨fun ws doc => rfl, ?_, ?_⟩
  · intro h
    unfold check_dependencies_with
    rw [h]
    simp
  · intro ti h
    unfold check_dependencies_with
    rw [h]
    dsimp only
    by_cases h1 : ti.status ∈ COMPLETED_STATUSES
    · rw [if_pos h1]
      refine ⟨fun _ => rfl, ?_, ?_⟩
      · intro h2
        exact absurd h2 (completed_not_in_progress _ h1)
      · intro h1c _
        exact absurd h1 h1c
    · rw [if_neg h1]
      by_cases h2 : ti.status ∈ IN_PROGRESS_STATUSES
      · rw [if_pos h2]
        refine ⟨fun h1c => absurd h1c h1, fun _ => rfl, ?_⟩
        intro _ h2c
        exact absurd h2 h2c
      · rw [if_neg h2]
        refine ⟨fun h1c => absurd h1c h1, fun h2c => absurd h2c h2, ?_⟩
        intro _ _
        by_cases hdeps : ti.dependencies.isEmpty
        · rw [if_pos hdeps]
          rw [List.isEmpty_iff] at hdeps
          rw [hdeps]
          simp [depIsCompleted_iff]
        · rw [if_neg hdeps]
          refine ⟨?_, rfl, rfl, ?_, ?_, fun d => depIsCompleted_iff tasks d⟩
          · simp only [List.isEmpty_iff, List.filter_eq_nil_iff, Bool.not_eq_true,
              decide_eq_true_eq]
            constructor
            · intro hall d hd
              have hcomp := hall d hd
              have hb : depIsCompleted tasks d = true := by
                cases hb : depIsCompleted tasks d
                · rw [hb] at hcomp
                  exact absurd hcomp (by decide)
                · rfl
              exact (depIsCompleted_iff tasks d).mp hb
            · intro hall d hd
              rw [(depIsCompleted_iff tasks d).mpr (hall d hd)]
              rfl
          · intro d
            constructor
            · intro hd
              by_cases hc : depIsCompleted tasks d = true
              · exact Or.inr (List.mem_filter.mpr ⟨hd, hc⟩)
              · exact Or.inl (List.mem_filter.mpr ⟨hd, by simp [hc]⟩)
            · rintro (hd | hd) <;> exact (List.mem_filter.mp hd).1
          · rintro d ⟨hm, hc⟩
            have h1m := (List.mem_filter.mp hm).2
            have h2m := (List.mem_filter.mp hc).2
            rw [h2m] at h1m
            simp at h1m

/-- C2 witness: on the example plan, `task-d` (PENDING, depending on the
COMPLETED `task-c`) can spawn, and the completed `task-c` cannot. -/
theorem c2_witness :
    (check_dependencies_with "task-c" (buildTasks exDoc)).can_spawn = false ∧
    (check_dependencies_with "ghost" (buildTasks exDoc)).can_spawn = true := by
  constructor
  · exact ((c2_check_dependencies "task-c" (buildTasks exDoc)).2.2
      (parseSection ⟨some "COMPLETED", none, none, none, none⟩) (by decide)).1 (by decide)
  · exact ((c2_check_dependencies "ghost" (buildTasks exDoc)).2.1 (by decide)).1

/-! ## C8 -/

theorem lookupTask_dictInsert (m : Tasks) (k : String) (v : TaskInfo) (x : String) :
    lookupTask (dictInsert m k v) x = if k = x then some v else lookupTask m x := by
  induction m with
  | nil =>
    unfold dictInsert lookupTask
    by_cases h : k = x <;> simp [h, lookupTask]
  | cons p rest ih =>
    obtain ⟨a, b⟩ := p
    unfold dictInsert
    by_cases hak : a = k
    · rw [if_pos hak]
      unfold lookupTask
      by_cases hkx : k = x
      · simp [hkx]
      · rw [if_neg hkx, if_neg hkx, if_neg]
        rw [hak]
        exact hkx
    · rw [if_neg hak]
      unfold lookupTask
      by_cases hax : a = x
      · have hkx : ¬ k = x := by
          rintro rfl
          exact hak hax
        simp [hax, hkx]
      · rw [if_neg hax, ih]
        by_cases hkx : k = x <;> simp [hkx, hax]

theorem keys_dictInsert (m : Tasks) (k : String) (v : TaskInfo) (x : String) :
    x ∈ (dictInsert m k v).map Prod.fst ↔ (x ∈ m.map Prod.fst ∨ x = k) := by
  induction m with
  | nil => simp [dictInsert]
  | cons p rest ih =>
    obtain ⟨a, b⟩ := p
    unfold dictInsert
    by_cases hak : a = k
    · subst hak
      simp [eq_comm, or_comm]
    · rw [if_neg hak]
      simp only [List.map_cons, List.mem_cons, ih]
      tauto

theorem nodup_keys_dictInsert (m : Tasks) (k : String) (v : TaskInfo)
    (h : (m.map Prod.fst).Nodup) : ((dictInsert m k v).map Prod.fst).Nodup := by
  induction m with
  | nil => simp [dictInsert]
  | cons p rest ih =>
    obtain ⟨a, b⟩ := p
    rw [List.map_cons, List.nodup_cons] at h
    unfold dictInsert
    by_cases hak : a = k
    · subst hak
      simpa using h
    · rw [if_neg hak]
      simp only [List.map_cons, List.nodup_cons]
      refine ⟨?_, ih h.2⟩
      rw [keys_dictInsert]
      rintro (hmem | rfl)
      · exact h.1 hmem
      · exact hak rfl

theorem length_dictInsert (m : Tasks) (k : String) (v : TaskInfo) :
    (dictInsert m k v).length =
      if k ∈ m.map Prod.fst then m.length else m.length + 1 := by
  induction m with
  | nil => simp [dictInsert]
  | cons p rest ih =>
    obtain ⟨a, b⟩ := p
    unfold dictInsert
    by_cases hak : a = k
    · subst hak
      simp
    · rw [if_neg hak]
      simp only [List.length_cons, ih, List.map_cons, List.mem_cons]
      have hka : ¬ k = a := fun he => hak he.symm
      by_cases hmem : k ∈ rest.map Prod.fst <;> simp [hmem, hka]

theorem lastBindingOf_cons (p : String × RawSection) (rest : PlanDoc) (x : String) :
    lastBindingOf (p :: rest) x =
      match lastBindingOf rest x with
      | some sec => some sec
      | none => if p.1 = x then some p.2 else none := rfl

theorem foldTasks_lookup (doc : PlanDoc) :
    ∀ (m : Tasks) (x : String),
      lookupTask (doc.foldl (fun m s => dictInsert m s.1 (parseSection s.2)) m) x =
        match lastBindingOf doc x with
        | some sec => some (parseSection sec)
        | none => lookupTask m x := by
  induction doc with
  | nil =>
    intro m x
    rfl
  | cons p rest ih =>
    intro m x
    rw [List.foldl_cons, ih, lastBindingOf_cons]
    cases hl : lastBindingOf rest x with
    | some sec => rfl
    | none =>
      rw [lookupTask_dictInsert]
      by_cases hk : p.1 = x <;> simp [hk]

theorem foldTasks_keys_mem (doc : PlanDoc) :
    ∀ (m : Tasks) (x : String),
      x ∈ ((doc.foldl (fun m s => dictInsert m s.1 (parseSection s.2)) m).map Prod.fst) ↔
        (x ∈ m.map Prod.fst ∨ x ∈ doc.map Prod.fst) := by
  induction doc with
  | nil => simp
  | cons p rest ih =>
    intro m x
    rw [List.foldl_cons, ih, keys_dictInsert]
    simp only [List.map_cons, List.mem_cons]
    tauto

theorem foldTasks_nodup (doc : PlanDoc) :
    ∀ (m : Tasks), (m.map Prod.fst).Nodup →
      ((doc.foldl (fun m s => dictInsert m s.1 (parseSection s.2)) m).map Prod.fst).Nodup := by
  induction doc with
  | nil => exact fun m h => h
  | cons p rest ih =>
    intro m h
    rw [List.foldl_cons]
    exact ih _ (nodup_keys_dictInsert m p.1 (parseSection p.2) h)

theorem buildTasks_nodup_keys (doc : PlanDoc) : ((buildTasks doc).map Prod.fst).Nodup :=
  foldTasks_nodup doc [] (by simp)

theorem buildTasks_keys_mem (doc : PlanDoc) (x : String) :
    x ∈ (buildTasks doc).map Prod.fst ↔ x ∈ doc.map Prod.fst := by
  unfold buildTasks
  rw [foldTasks_keys_mem]
  simp

/-- C8: with duplicated task names in the plan document, `parse_plan` binds
the name to the attributes of the last such section in document order, and
`task_count` equals the number of distinct task names, not the number of
section headings. -/
theorem c8_duplicate_sections (ws : String) (doc : PlanDoc) (name : String) :
    (∀ sec, lastBindingOf doc name = some sec →
       lookupTask (buildTasks doc) name = some (parseSection sec))
  ∧ (lastBindingOf doc name = none → lookupTask (buildTasks doc) name = none)
  ∧ (parse_plan ws (ReadOutcome.ok doc)).task_count = (buildTasks doc).length
  ∧ (buildTasks doc).length = ((doc.map Prod.fst).dedup).length
  ∧ ((buildTasks doc).map Prod.fst).Nodup := by
  have hlook := foldTasks_lookup doc [] name
  refine ⟨?_, ?_, rfl, ?_, buildTasks_nodup_keys doc⟩
  · intro sec hsec
    unfold buildTasks
    rw [hlook, hsec]
  · intro hnone
    unfold buildTasks
    rw [hlook, hnone]
    rfl
  · calc (buildTasks doc).length
        = ((buildTasks doc).map Prod.fst).length := (List.length_map _ _).symm
      _ = ((buildTasks doc).map Prod.fst).dedup.length := by
          rw [List.Nodup.dedup (buildTasks_nodup_keys doc)]
      _ = ((buildTasks doc).map Prod.fst).toFinset.card := (List.card_toFinset _).symm
      _ = (doc.map Prod.fst).toFinset.card := by
          congr 1
          ext a
          simp only [List.mem_toFinset]
          exact buildTasks_keys_mem doc a
      _ = ((doc.map Prod.fst).dedup).length := List.card_toFinset _

/-- C8 witness: `dup` appears twice in `exDocDup`; the parsed plan binds it
to the last section (COMPLETED, depending on `solo`), and counts 2 distinct
tasks for 3 section headings. -/
theorem c8_witness :
    lookupTask (buildTasks exDocDup) "dup" =
      some (parseSection ⟨some "COMPLETED", some (String.toList "solo"), none, none, none⟩)
  ∧ (parse_plan "ws" (ReadOutcome.ok exDocDup)).task_count = 2
  ∧ exDocDup.length = 3 := by
  have h := c8_duplicate_sections "ws" exDocDup "dup"
  refine ⟨h.1 _ (by decide), ?_, rfl⟩
  rw [h.2.2.1, h.2.2.2.1]
  decide

/-- C10 witness: lower-case input with surrounding whitespace is accepted
and normalized, and re-validating the result is the identity. -/
theorem c10_witness :
    validate_ticket (String.toList " k-123 ") = some (String.toList "K-123") ∧
    validate_ticket (String.toList "K-123") = some (String.toList "K-123") := by
  have h1 := (c10_validate_ticket (String.toList " k-123 ")).1 (by decide)
  have heq : upperChars (pyStrip (String.toList " k-123 ")) = String.toList "K-123" := by
    decide
  rw [heq] at h1
  exact ⟨h1, (c10_validate_ticket (String.toList " k-123 ")).2.1 _ h1⟩

/-! ## C1 -/

theorem parseStatusTok_mem_valid (tok : Option String) :
    parseStatusTok tok ∈ VALID_STATUSES := by
  unfold parseStatusTok
  cases tok with
  | none => decide
  | some s =>
    by_cases hmem : pyUpperS s ∈ VALID_STATUSES
    · simp [hmem]
    · simp only [hmem, if_false]
      decide

theorem mem_dictInsert_elim (m : Tasks) (k : String) (v : TaskInfo)
    (p : String × TaskInfo) (h : p ∈ dictInsert m k v) : p ∈ m ∨ p = (k, v) := by
  induction m with
  | nil =>
    simp [dictInsert] at h
    exact Or.inr h
  | cons q rest ih =>
    obtain ⟨a, b⟩ := q
    unfold dictInsert at h
    by_cases hak : a = k
    · rw [if_pos hak] at h
      rcases List.mem_cons.mp h with heq | hmem
      · exact Or.inr heq
      · exact Or.inl (List.mem_cons_of_mem _ hmem)
    · rw [if_neg hak] at h
      rcases List.mem_cons.mp h with heq | hmem
      · exact Or.inl (heq ▸ List.mem_cons_self _ _)
      · rcases ih hmem with hm | he
        · exact Or.inl (List.mem_cons_of_mem _ hm)
        · exact Or.inr he

theorem foldTasks_status_valid (doc : PlanDoc) :
    ∀ (m : Tasks), (∀ q ∈ m, (Prod.snd q).status ∈ VALID_STATUSES) →
      ∀ q ∈ doc.foldl (fun m s => dictInsert m s.1 (parseSection s.2)) m,
        (Prod.snd q).status ∈ VALID_STATUSES := by
  induction doc with
  | nil => exact fun m hm => hm
  | cons p rest ih =>
    intro m hm q hq
    rw [List.foldl_cons] at hq
    refine ih _ ?_ q hq
    intro p' hp'
    rcases mem_dictInsert_elim _ _ _ _ hp' with hm' | rfl
    · exact hm p' hm'
    · exact parseStatusTok_mem_valid _

theorem buildTasks_status_valid (doc : PlanDoc) (name : String) (ti : TaskInfo)
    (h : (name, ti) ∈ buildTasks doc) : ti.status ∈ VALID_STATUSES :=
  foldTasks_status_valid doc [] (by simp) (name, ti) h

theorem in_progress_not_completed (s : String) (h : s ∈ IN_PROGRESS_STATUSES) :
    s ∉ COMPLETED_STATUSES := by
  simp only [IN_PROGRESS_STATUSES, List.mem_cons, List.not_mem_nil, or_false] at h
  rcases h with rfl | rfl | rfl <;> decide

theorem remaining_status_iff (s : String) (h : s ∈ VALID_STATUSES) :
    (s = "PENDING" ∨ s = "BLOCKED") ↔
      (s ∉ COMPLETED_STATUSES ∧ s ∉ IN_PROGRESS_STATUSES ∧ ¬ s = "ABANDONED") := by
  simp only [VALID_STATUSES, List.mem_cons, List.not_mem_nil, or_false] at h
  rcases h with rfl | rfl | rfl | rfl | rfl | rfl | rfl | rfl | rfl <;> decide

theorem gubStep_bucket_sub (all : Tasks) (name : String) (ti : TaskInfo) (b : GubBuckets) :
    (∀ x, x ∈ (gubStep all name ti b).completed → x = name ∨ x ∈ b.completed)
  ∧ (∀ x, x ∈ (gubStep all name ti b).in_progress → x = name ∨ x ∈ b.in_progress)
  ∧ (∀ x, x ∈ (gubStep all name ti b).unblocked → x = name ∨ x ∈ b.unblocked)
  ∧ (∀ x bi, (x, bi) ∈ (gubStep all name ti b).blocked →
       x = name ∨ (x, bi) ∈ b.blocked) := by
  refine ⟨?_, ?_, ?_, ?_⟩
  · intro x hx
    unfold gubStep at hx
    dsimp only at hx
    split_ifs at hx <;> simp_all
  · intro x hx
    unfold gubStep at hx
    dsimp only at hx
    split_ifs at hx <;> simp_all
  · intro x hx
    unfold gubStep at hx
    dsimp only at hx
    split_ifs at hx <;> simp_all
  · intro x bi hx
    unfold gubStep at hx
    dsimp only at hx
    split_ifs at hx <;> simp_all
    tauto

theorem gubLoop_mem_keys (all : Tasks) (l : Tasks) :
    (∀ x, x ∈ (gubLoop all l).completed → x ∈ l.map Prod.fst)
  ∧ (∀ x, x ∈ (gubLoop all l).in_progress → x ∈ l.map Prod.fst)
  ∧ (∀ x, x ∈ (gubLoop all l).unblocked → x ∈ l.map Prod.fst)
  ∧ (∀ x bi, (x, bi) ∈ (gubLoop all l).blocked → x ∈ l.map Prod.fst) := by
  induction l with
  | nil => simp [gubLoop]
  | cons p rest ih =>
    obtain ⟨n0, ti0⟩ := p
    have hsub := gubStep_bucket_sub all n0 ti0 (gubLoop all rest)
    refine ⟨?_, ?_, ?_, ?_⟩
    · intro x hx
      rcases hsub.1 x hx with rfl | hx'
      · exact List.mem_cons_self _ _
      · exact List.mem_cons_of_mem _ (ih.1 x hx')
    · intro x hx
      rcases hsub.2.1 x hx with rfl | hx'
      · exact List.mem_cons_self _ _
      · exact List.mem_cons_of_mem _ (ih.2.1 x hx')
    · intro x hx
      rcases hsub.2.2.1 x hx with rfl | hx'
      · exact List.mem_cons_self _ _
      · exact List.mem_cons_of_mem _ (ih.2.2.1 x hx')
    · intro x bi hx
      rcases hsub.2.2.2 x bi hx with rfl | hx'
      · exact List.mem_cons_self _ _
      · exact List.mem_cons_of_mem _ (ih.2.2.2 x bi hx')

theorem gubStep_characterize (all : Tasks) (name : String) (ti : TaskInfo)
    (b : GubBuckets)
    (hc : name ∉ b.completed) (hi : name ∉ b.in_progress) (hu : name ∉ b.unblocked)
    (hb : ∀ bi, (name, bi) ∉ b.blocked) :
    (name ∈ (gubStep all name ti b).completed ↔ ti.status ∈ COMPLETED_STATUSES)
  ∧ (name ∈ (gubStep all name ti b).in_progress ↔
      (ti.status ∉ COMPLETED_STATUSES ∧ ti.status ∈ IN_PROGRESS_STATUSES))
  ∧ (name ∈ (gubStep all name ti b).unblocked ↔
      ((ti.status ∉ COMPLETED_STATUSES ∧ ti.status ∉ IN_PROGRESS_STATUSES ∧
          ¬ ti.status = "ABANDONED") ∧
        ti.dependencies.filter (fun d => depIsMissing all d) = []))
  ∧ (∀ bi, (name, bi) ∈ (gubStep all name ti b).blocked ↔
      ((ti.status ∉ COMPLETED_STATUSES ∧ ti.status ∉ IN_PROGRESS_STATUSES ∧
          ¬ ti.status = "ABANDONED") ∧
        ¬ ti.dependencies.filter (fun d => depIsMissing all d) = [] ∧
        bi = ⟨ti.dependencies.filter (fun d => depIsMissing all d), ti.status⟩)) := by
  unfold gubStep
  by_cases h1 : ti.status ∈ COMPLETED_STATUSES
  · simp only [h1, if_true]
    refine ⟨by simp, ?_, ?_, ?_⟩
    · simp [hi, h1]
    · simp [hu, h1]
    · intro bi
      simp [hb bi, h1]
  · rw [if_neg h1]
    by_cases h2 : ti.status ∈ IN_PROGRESS_STATUSES
    · rw [if_pos h2]
      refine ⟨by simp [hc, h1], by simp [h1, h2], by simp [hu, h2], ?_⟩
      intro bi
      simp [hb bi, h2]
    · rw [if_neg h2]
      by_cases h3 : ti.status = "ABANDONED"
      · rw [if_pos h3]
        refine ⟨by simp [hc, h1], by simp [hi, h1, h2], by simp [hu, h3], ?_⟩
        intro bi
        simp [hb bi, h3]
      · rw [if_neg h3]
        dsimp only
        by_cases hde : ti.dependencies.isEmpty
        · rw [if_pos hde]
          rw [List.isEmpty_iff] at hde
          refine ⟨by simp [hc, h1], by simp [hi, h1, h2], ?_, ?_⟩
          · simp [h1, h2, h3, hde]
          · intro bi
            simp [hb bi, hde]
        · rw [if_neg hde]
          by_cases hme : (ti.dependencies.filter (fun d => depIsMissing all d)).isEmpty
          · rw [if_pos hme]
            rw [List.isEmpty_iff] at hme
            refine ⟨by simp [hc, h1], by simp [hi, h1, h2], ?_, ?_⟩
            · simp [h1, h2, h3, hme]
            · intro bi
              simp [hb bi, hme]
          · rw [if_neg hme]
            rw [List.isEmpty_iff] at hme
            refine ⟨by simp [hc, h1], by simp [hi, h1, h2], by simp [hu, hme], ?_⟩
            intro bi
            simp only [List.mem_cons, Prod.mk.injEq]
            constructor
            · rintro (⟨-, rfl⟩ | hmem)
              · exact ⟨⟨h1, h2, h3⟩, hme, rfl⟩
              · exact absurd hmem (hb bi)
            · rintro ⟨-, -, rfl⟩
              simp

theorem gubStep_other (all : Tasks) (n0 : String) (ti0 : TaskInfo) (b : GubBuckets)
    (x : String) (hx : ¬ x = n0) :
    (x ∈ (gubStep all n0 ti0 b).completed ↔ x ∈ b.completed)
  ∧ (x ∈ (gubStep all n0 ti0 b).in_progress ↔ x ∈ b.in_progress)
  ∧ (x ∈ (gubStep all n0 ti0 b).unblocked ↔ x ∈ b.unblocked)
  ∧ (∀ bi, (x, bi) ∈ (gubStep all n0 ti0 b).blocked ↔ (x, bi) ∈ b.blocked) := by
  unfold gubStep
  dsimp only
  split_ifs <;>
    refine ⟨by simp [hx], by simp [hx], by simp [hx], fun bi => by simp [hx]⟩

theorem gubLoop_cons (all : Tasks) (n : String) (t : TaskInfo) (rest : Tasks) :
    gubLoop all ((n, t) :: rest) = gubStep all n t (gubLoop all rest) := rfl

theorem gubLoop_characterize (all : Tasks) (l : Tasks)
    (hnd : (l.map Prod.fst).Nodup) (name : String) (ti : TaskInfo)
    (hmem : (name, ti) ∈ l) :
    (name ∈ (gubLoop all l).completed ↔ ti.status ∈ COMPLETED_STATUSES)
  ∧ (name ∈ (gubLoop all l).in_progress ↔
      (ti.status ∉ COMPLETED_STATUSES ∧ ti.status ∈ IN_PROGRESS_STATUSES))
  ∧ (name ∈ (gubLoop all l).unblocked ↔
      ((ti.status ∉ COMPLETED_STATUSES ∧ ti.status ∉ IN_PROGRESS_STATUSES ∧
          ¬ ti.status = "ABANDONED") ∧
        ti.dependencies.filter (fun d => depIsMissing all d) = []))
  ∧ (∀ bi, (name, bi) ∈ (gubLoop all l).blocked ↔
      ((ti.status ∉ COMPLETED_STATUSES ∧ ti.status ∉ IN_PROGRESS_STATUSES ∧
          ¬ ti.status = "ABANDONED") ∧
        ¬ ti.dependencies.filter (fun d => depIsMissing all d) = [] ∧
        bi = ⟨ti.dependencies.filter (fun d => depIsMissing all d), ti.status⟩)) := by
  induction l with
  | nil => cases hmem
  | cons p rest ih =>
    obtain ⟨n0, ti0⟩ := p
    rw [List.map_cons, List.nodup_cons] at hnd
    rw [gubLoop_cons]
    rcases List.mem_cons.mp hmem with heq | hmem'
    · cases heq
      have hkeys := gubLoop_mem_keys all rest
      exact gubStep_characterize all name ti (gubLoop all rest)
        (fun h => hnd.1 (hkeys.1 name h))
        (fun h => hnd.1 (hkeys.2.1 name h))
        (fun h => hnd.1 (hkeys.2.2.1 name h))
        (fun bi h => hnd.1 (hkeys.2.2.2 name bi h))
    · have hx : ¬ name = n0 := by
        rintro rfl
        exact hnd.1 (List.mem_map.mpr ⟨(name, ti), hmem', rfl⟩)
      have hstep := gubStep_other all n0 ti0 (gubLoop all rest) name hx
      have hrec := ih hnd.2 hmem'
      exact ⟨hstep.1.trans hrec.1, (hstep.2.1).trans hrec.2.1,
        (hstep.2.2.1).trans hrec.2.2.1,
        fun bi => ((hstep.2.2.2 bi).trans (hrec.2.2.2 bi))⟩

theorem get_unblocked_ok_buckets (ws : String) (doc : PlanDoc) :
    (get_unblocked_tasks ws (ReadOutcome.ok doc)).unblocked =
      (gubLoop (buildTasks doc) (buildTasks doc)).unblocked
  ∧ (get_unblocked_tasks ws (ReadOutcome.ok doc)).blocked =
      (gubLoop (buildTasks doc) (buildTasks doc)).blocked
  ∧ (get_unblocked_tasks ws (ReadOutcome.ok doc)).in_progress =
      (gubLoop (buildTasks doc) (buildTasks doc)).in_progress
  ∧ (get_unblocked_tasks ws (ReadOutcome.ok doc)).completed =
      (gubLoop (buildTasks doc) (buildTasks doc)).completed
  ∧ (get_unblocked_tasks ws (ReadOutcome.ok doc)).success = true :=
  ⟨rfl, rfl, rfl, rfl, rfl⟩

theorem missing_filter_nil_iff (tasks : Tasks) (deps : List String) :
    deps.filter (fun d => depIsMissing tasks d) = [] ↔
      ∀ d ∈ deps, depSatisfied tasks d := by
  rw [List.filter_eq_nil_iff]
  constructor
  · intro h d hd
    have hm := h d hd
    rw [Bool.not_eq_true] at hm
    by_contra hns
    exact absurd ((depIsMissing_iff tasks d).mpr hns) (by rw [hm]; simp)
  · intro h d hd
    rw [Bool.not_eq_true]
    cases hm : depIsMissing tasks d
    · rfl
    · exact absurd (h d hd) ((depIsMissing_iff tasks d).mp hm)

/-- C1: on every parsed plan graph, `get_unblocked_tasks` partitions tasks
by status: completed-class tasks go to `completed`, in-progress-class to
`in_progress`, ABANDONED tasks to no bucket; every remaining (PENDING or
BLOCKED) task is in `unblocked` iff its dependency list is empty or every
dependency resolves to a completed-class task, and otherwise it is in
`blocked` with exactly the unsatisfied dependency names as `missing` (a name
absent from the graph counts as missing).  The cycle clause: whenever every
member of a set `S` of task names exists with a non-completed status and has
a dependency inside `S` (as every dependency cycle does), every PENDING or
BLOCKED member of `S` is blocked, with the computation total. -/
theorem c1_get_unblocked_partition (ws : String) (doc : PlanDoc) :
    (∀ name ti, (name, ti) ∈ buildTasks doc →
       ((ti.status ∈ COMPLETED_STATUSES ↔
           name ∈ (get_unblocked_tasks ws (ReadOutcome.ok doc)).completed)
      ∧ (ti.status ∈ IN_PROGRESS_STATUSES ↔
           name ∈ (get_unblocked_tasks ws (ReadOutcome.ok doc)).in_progress)
      ∧ (ti.status = "ABANDONED" →
           name ∉ (get_unblocked_tasks ws (ReadOutcome.ok doc)).completed ∧
           name ∉ (get_unblocked_tasks ws (ReadOutcome.ok doc)).in_progress ∧
           name ∉ (get_unblocked_tasks ws (ReadOutcome.ok doc)).unblocked ∧
           ∀ bi, (name, bi) ∉ (get_unblocked_tasks ws (ReadOutcome.ok doc)).blocked)
      ∧ (remainingStatus ti →
           ((name ∈ (get_unblocked_tasks ws (ReadOutcome.ok doc)).unblocked ↔
               (ti.dependencies = [] ∨
                 ∀ d ∈ ti.dependencies, depSatisfied (buildTasks doc) d))
          ∧ (∀ bi,
               (name, bi) ∈ (get_unblocked_tasks ws (ReadOutcome.ok doc)).blocked ↔
                 (¬ (∀ d ∈ ti.dependencies, depSatisfied (buildTasks doc) d) ∧
                   bi = ⟨ti.dependencies.filter
                           (fun d => depIsMissing (buildTasks doc) d), ti.status⟩))
          ∧ (∀ d, depIsMissing (buildTasks doc) d = true ↔
               ¬ depSatisfied (buildTasks doc) d)))))
  ∧ (∀ S : List String,
       (∀ n ∈ S, ∃ i, lookupTask (buildTasks doc) n = some i ∧
          i.status ∉ COMPLETED_STATUSES ∧ ∃ d ∈ i.dependencies, d ∈ S) →
       ∀ n ∈ S, ∀ i, lookupTask (buildTasks doc) n = some i → remainingStatus i →
         (n, ⟨i.dependencies.filter (fun d => depIsMissing (buildTasks doc) d),
              i.status⟩) ∈ (get_unblocked_tasks ws (ReadOutcome.ok doc)).blocked ∧
         n ∉ (get_unblocked_tasks ws (ReadOutcome.ok doc)).unblocked) := by
  obtain ⟨hu, hbk, hip, hcp, -⟩ := get_unblocked_ok_buckets ws doc
  have hnd := buildTasks_nodup_keys doc
  have main : ∀ name ti, (name, ti) ∈ buildTasks doc →
      ((ti.status ∈ COMPLETED_STATUSES ↔
          name ∈ (get_unblocked_tasks ws (ReadOutcome.ok doc)).completed)
    ∧ (ti.status ∈ IN_PROGRESS_STATUSES ↔
          name ∈ (get_unblocked_tasks ws (ReadOutcome.ok doc)).in_progress)
    ∧ (ti.status = "ABANDONED" →
          name ∉ (get_unblocked_tasks ws (ReadOutcome.ok doc)).completed ∧
          name ∉ (get_unblocked_tasks ws (ReadOutcome.ok doc)).in_progress ∧
          name ∉ (get_unblocked_tasks ws (ReadOutcome.ok doc)).unblocked ∧
          ∀ bi, (name, bi) ∉ (get_unblocked_tasks ws (ReadOutcome.ok doc)).blocked)
    ∧ (remainingStatus ti →
          ((name ∈ (get_unblocked_tasks ws (ReadOutcome.ok doc)).unblocked ↔
              (ti.dependencies = [] ∨
                ∀ d ∈ ti.dependencies, depSatisfied (buildTasks doc) d))
        ∧ (∀ bi,
              (name, bi) ∈ (get_unblocked_tasks ws (ReadOutcome.ok doc)).blocked ↔
                (¬ (∀ d ∈ ti.dependencies, depSatisfied (buildTasks doc) d) ∧
                  bi = ⟨ti.dependencies.filter
                          (fun d => depIsMissing (buildTasks doc) d), ti.status⟩))
        ∧ (∀ d, depIsMissing (buildTasks doc) d = true ↔
              ¬ depSatisfied (buildTasks doc) d)))) := by
    intro name ti hmem
    have hch := gubLoop_characterize (buildTasks doc) (buildTasks doc) hnd name ti hmem
    have hvalid := buildTasks_status_valid doc name ti hmem
    rw [hu, hbk, hip, hcp]
    refine ⟨?_, ?_, ?_, ?_⟩
    · constructor
      · intro h1
        exact hch.1.mpr h1
      · exact hch.1.mp
    · constructor
      · intro h2
        exact hch.2.1.mpr ⟨in_progress_not_completed _ h2, h2⟩
      · exact fun h => (hch.2.1.mp h).2
    · intro h3
      have h1 : ti.status ∉ COMPLETED_STATUSES := by
        rw [h3]
        decide
      have h2 : ti.status ∉ IN_PROGRESS_STATUSES := by
        rw [h3]
        decide
      refine ⟨fun h => h1 (hch.1.mp h), fun h => h2 ((hch.2.1.mp h).2), ?_, ?_⟩
      · intro h
        exact absurd h3 (hch.2.2.1.mp h).1.2.2
      · intro bi h
        exact absurd h3 ((hch.2.2.2 bi).mp h).1.2.2
    · intro hrem
      have hcode := (remaining_status_iff ti.status hvalid).mp hrem
      have hfil := missing_filter_nil_iff (buildTasks doc) ti.dependencies
      refine ⟨?_, ?_, fun d => depIsMissing_iff _ d⟩
      · rw [hch.2.2.1]
        constructor
        · rintro ⟨-, hnil⟩
          exact Or.inr (hfil.mp hnil)
        · rintro (hdeps | hall)
          · refine ⟨hcode, ?_⟩
            rw [hdeps]
            rfl
          · exact ⟨hcode, hfil.mpr hall⟩
      · intro bi
        rw [hch.2.2.2 bi]
        constructor
        · rintro ⟨-, hnnil, rfl⟩
          exact ⟨fun hall => hnnil (hfil.mpr hall), rfl⟩
        · rintro ⟨hnall, rfl⟩
          exact ⟨hcode, fun hnil => hnall (hfil.mp hnil), rfl⟩
  refine ⟨main, ?_⟩
  intro S hS n hnS i hlook hrem
  obtain ⟨i', hlook', -, d, hd, hdS⟩ := hS n hnS
  rw [hlook] at hlook'
  cases hlook'
  obtain ⟨j, hlookj, hjnc, -⟩ := hS d hdS
  have hdm : depIsMissing (buildTasks doc) d = true := by
    unfold depIsMissing
    rw [hlookj]
    simp [hjnc]
  have hmem : (n, i) ∈ buildTasks doc := lookupTask_mem _ _ _ hlook
  have hmain := main n i hmem
  have hnotall : ¬ (∀ d ∈ i.dependencies, depSatisfied (buildTasks doc) d) := by
    intro hall
    exact absurd ((depIsMissing_iff _ d).mp hdm) (not_not_intro (hall d hd))
  refine ⟨((hmain.2.2.2 hrem).2.1 _).mpr ⟨hnotall, rfl⟩, ?_⟩
  intro hunb
  rcases (hmain.2.2.2 hrem).1.mp hunb with hdeps | hall
  · rw [hdeps] at hd
    cases hd
  · exact hnotall hall

/-- C1 witness: in the cyclic example plan, `cyc-a` (PENDING, in a two-task
cycle with `cyc-b`) is blocked with `cyc-b` recorded as missing, and is not
unblocked. -/
theorem c1_witness :
    ("cyc-a", (⟨[ "cyc-b" ], "PENDING"⟩ : BlockedInfo)) ∈
      (get_unblocked_tasks "ws" (ReadOutcome.ok exDocCycle)).blocked ∧
    "cyc-a" ∉ (get_unblocked_tasks "ws" (ReadOutcome.ok exDocCycle)).unblocked := by
  have h := (c1_get_unblocked_partition "ws" exDocCycle).2 ["cyc-a", "cyc-b"] ?hS
      "cyc-a" (by decide)
      (parseSection ⟨some "PENDING", some (String.toList "cyc-b"), none, none, none⟩)
      (by decide) (Or.inl (by decide))
  case hS =>
    intro n hn
    rcases List.mem_cons.mp hn with rfl | hn'
    · refine ⟨parseSection ⟨some "PENDING", some (String.toList "cyc-b"), none, none, none⟩,
        by decide, by decide, "cyc-b", by decide, by decide⟩
    · rcases List.mem_cons.mp hn' with rfl | hn''
      · refine ⟨parseSection ⟨some "PENDING", some (String.toList "cyc-a"), none, none, none⟩,
          by decide, by decide, "cyc-a", by decide, by decide⟩
      · cases hn''
  have hmfil : (parseSection
      ⟨some "PENDING", some (String.toList "cyc-b"), none, none, none⟩).dependencies.filter
        (fun d => depIsMissing (buildTasks exDocCycle) d) = [ "cyc-b" ] := by decide
  constructor
  · have h1 := h.1
    rw [hmfil] at h1
    have hst : (parseSection
        ⟨some "PENDING", some (String.toList "cyc-b"), none, none, none⟩).status =
          "PENDING" := by decide
    rw [hst] at h1
    exact h1
  · exact h.2

end WorktreeOperator
